import Mathlib

/-!
Shallow embedding of `src/registry.py` (stock-exchange registry basic data).

The Python module defines `Registry(dict)`, which keeps one `RegistryErrorDict`
under the key `'Errors'` in the same dictionary that holds the per-ISIN
records, plus the row admissibility check `_registry_row_is_addable`, the
row conversion `_registry_row_from_csv`, and the module-level numeric
converter `_string_to_decimal`.

Python dictionaries are embedded as association lists without duplicate keys;
assignment `d[k] = v` is `dictInsert`, lookup is `dictLookup`.  Python
`decimal.Decimal` values are embedded as exact coefficient-exponent pairs
(`PyDecimal`, mirroring Decimal's own representation), with `PyDecimal.val`
giving the denoted rational.  The external collaborators (the CSV reader,
the configured date format used by `datetime.strptime`, logging) are
parameters: the rows come in as a list, the date-format parse is an
abstract predicate `df : String → Bool`, and the final logging call is
reified as `LoadReport`.
-/

/-- One raw CSV row: the mapping from the seven column names
(`ISIN`, `Name`, `EPS`, `Months in Report`, `Report Expiry Date`,
`Own Investor Link`, `Stock Exchange Link`) to string values. -/
structure RawRow where
  isin : String
  name : String
  eps : String
  monthsInReport : String
  reportExpiryDate : String
  ownInvestorLink : String
  stockExchangeLink : String
deriving DecidableEq

/-- `RegistryErrorDict` (src/registry.py lines 88-98): the error aggregate,
a dict with six fixed keys, here a structure with one field per key. -/
structure RegistryErrorDict where
  errorsFound : Bool
  numberOfMissingISINs : Nat
  faultyISINs : Finset String
  missingNames : Finset String
  faultyMonthsInReport : Finset String
  faultyReportExpiryDates : Finset String
deriving DecidableEq

/-- `RegistryErrorDict.__init__`: `Errors found` false, the counter zero,
the four identifier sets empty. -/
def RegistryErrorDict.init : RegistryErrorDict :=
  { errorsFound := false
    numberOfMissingISINs := 0
    faultyISINs := ∅
    missingNames := ∅
    faultyMonthsInReport := ∅
    faultyReportExpiryDates := ∅ }

/-- A character list with the whitespace stripped from both ends. -/
def trimChars (l : List Char) : List Char :=
  ((l.dropWhile Char.isWhitespace).reverse.dropWhile Char.isWhitespace).reverse

/-- The natural number denoted by a list of ASCII digits, most significant
digit first. -/
def digitsVal (l : List Char) : Nat :=
  l.foldl (fun acc c => 10 * acc + (c.toNat - 48)) 0

/-- Model of Python `int(s)` on strings: optional surrounding whitespace,
optional single sign, then one or more ASCII digits; `none` models the
`ValueError` raised on any other input. -/
def pyInt (s : String) : Option Int :=
  let t := trimChars s.data
  match t with
  | '-' :: r => if r ≠ [] ∧ r.all Char.isDigit then some (-(digitsVal r : Int)) else none
  | '+' :: r => if r ≠ [] ∧ r.all Char.isDigit then some ((digitsVal r : Int)) else none
  | _ => if t ≠ [] ∧ t.all Char.isDigit then some ((digitsVal t : Int)) else none

/-- Line 62: `int(row['Months in Report']) if row['Months in Report'] != '' else 0`.
`none` models the `ValueError` from `int`. -/
def monthsValue (s : String) : Option Int :=
  if s ≠ "" then pyInt s else some (0 : Int)

/-- Lines 62-64: the reporting-period check fails (the `ValueError` is caught)
exactly when the conversion fails or the value is not in `(0, 3, 6, 9, 12)`. -/
def monthsBad (s : String) : Bool :=
  match monthsValue s with
  | none => true
  | some m => !(m = 0 || m = 3 || m = 6 || m = 9 || m = 12)

/-- An exact `decimal.Decimal` value: signed coefficient and base-ten
exponent (the denoted number is `coeff * 10 ^ exp`), exactly the
representation `Decimal` itself keeps, so precision is never lost. -/
structure PyDecimal where
  coeff : Int
  exp : Int
deriving DecidableEq

/-- The rational number a `PyDecimal` denotes. -/
def PyDecimal.val (d : PyDecimal) : ℚ :=
  (d.coeff : ℚ) * (10 : ℚ) ^ d.exp

/-- Parse an unsigned decimal mantissa (`digits`, `digits.`, `digits.digits`
or `.digits`) from the front of a character list, returning its coefficient
digits' value, the exponent contributed by the fractional part, and the
unconsumed rest; `none` if no digit is present. -/
def parseMantissa (l : List Char) : Option (Nat × Int × List Char) :=
  let ip := l.takeWhile Char.isDigit
  let r1 := l.dropWhile Char.isDigit
  match r1 with
  | '.' :: r2 =>
    let fp := r2.takeWhile Char.isDigit
    let r3 := r2.dropWhile Char.isDigit
    if ip.isEmpty && fp.isEmpty then none
    else some (digitsVal (ip ++ fp), -(fp.length : Int), r3)
  | _ => if ip.isEmpty then none else some (digitsVal ip, (0 : Int), r1)

/-- Model of `decimal.Decimal(s)` restricted to finite numeric strings:
optional surrounding whitespace, optional sign, a decimal mantissa, optional
`e`/`E` exponent.  `some d` is the exact value, `none` models the
`decimal.InvalidOperation` raised on malformed input (the non-finite inputs
`NaN`/`Infinity`, which no exact value denotes, are folded into `none`; no
EPS field is expected to carry them). -/
def parseDecimal (s : String) : Option PyDecimal :=
  let l := trimChars s.data
  let sp : Int × List Char :=
    match l with
    | '-' :: r => ((-1 : Int), r)
    | '+' :: r => ((1 : Int), r)
    | _ => ((1 : Int), l)
  match parseMantissa sp.2 with
  | none => none
  | some (c, ex, rest) =>
    match rest with
    | [] => some ⟨sp.1 * c, ex⟩
    | ch :: r =>
      if ch = 'e' ∨ ch = 'E' then
        let es : Int × List Char :=
          match r with
          | '-' :: rr => ((-1 : Int), rr)
          | '+' :: rr => ((1 : Int), rr)
          | _ => ((1 : Int), r)
        let ed := es.2.takeWhile Char.isDigit
        let r3 := es.2.dropWhile Char.isDigit
        if ed.isEmpty ∨ ¬ r3.isEmpty then none
        else some ⟨sp.1 * c, ex + es.1 * (digitsVal ed : Int)⟩
      else none

/-- Python `s.replace(',', '.')`: every comma of the string becomes a
point (for these single-character arguments the replacement is a map over
the characters). -/
def commaToPoint (s : String) : String :=
  String.mk (s.data.map (fun c => if c = ',' then '.' else c))

/-- `_string_to_decimal` (lines 100-109).  Line 105 evaluates
`s.replace(',', '.')` when the string has no point, but the result is
discarded (Python strings are immutable and nothing is assigned), which the
embedding mirrors with an unused binding: the original `s` is what gets
parsed, and any failure falls back to `Decimal('0')`. -/
def stringToDecimal (s : String) : PyDecimal :=
  let _discarded := if (s.data.contains '.') = false then commaToPoint s else s
  match parseDecimal s with
  | some d => d
  | none => ⟨0, 0⟩

/-- Modelled from the spec: the intended conversion in which the
comma-to-point substitution is actually applied before parsing ("if the
string contains no decimal point character, first attempt to treat any comma
character as the decimal separator (substitute comma→point)").  Present only
to exhibit the divergence of `stringToDecimal` from that description. -/
def stringToDecimalSpec (s : String) : PyDecimal :=
  let s2 := if (s.data.contains '.') = false then commaToPoint s else s
  match parseDecimal s2 with
  | some d => d
  | none => ⟨0, 0⟩

/-- `Registry._registry_row_is_addable` (lines 45-76), acting on the owned
error aggregate.  `df` abstracts `datetime.strptime(s, config date format)`:
`df s = true` means the string parses against the configured pattern. -/
def registryRowIsAddable (df : String → Bool) (e : RegistryErrorDict) (row : RawRow) :
    Bool × RegistryErrorDict :=
  if row.isin = "" then
    (false, { e with errorsFound := true
                     numberOfMissingISINs := e.numberOfMissingISINs + 1 })
  else if row.isin.length ≠ 12 then
    (false, { e with errorsFound := true
                     faultyISINs := insert row.isin e.faultyISINs })
  else
    let e1 := if row.name = "" then
        { e with errorsFound := true
                 missingNames := insert row.isin e.missingNames }
      else e
    let e2 := if monthsBad row.monthsInReport then
        { e1 with errorsFound := true
                  faultyMonthsInReport := insert row.isin e1.faultyMonthsInReport }
      else e1
    let e3 := if row.reportExpiryDate = "" then e2
      else if df row.reportExpiryDate then e2
      else { e2 with errorsFound := true
                     faultyReportExpiryDates := insert row.isin e2.faultyReportExpiryDates }
    (true, e3)

/-- The normalized record stored under an ISIN: `_registry_row_from_csv`
output, with the EPS as an exact decimal. -/
structure NormalizedRecord where
  name : String
  eps : PyDecimal
  monthsInReport : String
  reportExpiryDate : String
  ownInvestorLink : String
  stockExchangeLink : String
deriving DecidableEq

/-- `Registry._registry_row_from_csv` (lines 78-86). -/
def registryRowFromCsv (row : RawRow) : NormalizedRecord :=
  { name := row.name
    eps := stringToDecimal row.eps
    monthsInReport := row.monthsInReport
    reportExpiryDate := row.reportExpiryDate
    ownInvestorLink := row.ownInvestorLink
    stockExchangeLink := row.stockExchangeLink }

/-- A value stored in the `Registry` dictionary: either the error aggregate
(under the key `'Errors'`) or a normalized record (under an ISIN). -/
inductive RegValue where
  | errs (e : RegistryErrorDict)
  | record (r : NormalizedRecord)
deriving DecidableEq

/-- `Registry` subclasses `dict`: one dictionary holding both the error
aggregate and the ISIN records, embedded as a duplicate-free association
list in insertion order. -/
abbrev Registry := List (String × RegValue)

/-- Python dict assignment `d[k] = v` on a duplicate-free association list:
replace in place if the key is present, else append. -/
def dictInsert : Registry → String → RegValue → Registry
  | [], k, v => [(k, v)]
  | p :: rest, k, v => if p.1 = k then (k, v) :: rest else p :: dictInsert rest k v

/-- Python dict lookup `d[k]`, as an `Option`. -/
def dictLookup : Registry → String → Option RegValue
  | [], _ => none
  | p :: rest, k => if p.1 = k then some p.2 else dictLookup rest k

/-- `Registry.__init__` (lines 23-27): `self['Errors'] = RegistryErrorDict()`
into the fresh (empty) dict. -/
def Registry.init : Registry :=
  dictInsert [] "Errors" (RegValue.errs RegistryErrorDict.init)

/-- `self['Errors']` as read by the methods.  The key is always present on
every registry the code constructs (the `_` branch is unreachable there;
in Python it would be a `KeyError`). -/
def Registry.getErrors (reg : Registry) : RegistryErrorDict :=
  match dictLookup reg "Errors" with
  | some (RegValue.errs e) => e
  | _ => RegistryErrorDict.init

/-- Assignment `self['Errors'] = e`. -/
def Registry.setErrors (reg : Registry) (e : RegistryErrorDict) : Registry :=
  dictInsert reg "Errors" (RegValue.errs e)

/-- `_registry_row_is_addable` as the method on `Registry`: reads and
writes the aggregate stored under `'Errors'` in the shared dictionary. -/
def Registry.rowIsAddable (reg : Registry) (df : String → Bool) (row : RawRow) :
    Bool × Registry :=
  let r := registryRowIsAddable df (Registry.getErrors reg) row
  (r.1, Registry.setErrors reg r.2)

/-- The dict comprehension of `load_from_file` (lines 32-35): evaluate the
filter `_registry_row_is_addable(row)` per row in order (mutating
`self['Errors']` as a side effect) and collect `(ISIN, record)` pairs for
the rows that pass. -/
def Registry.processRows (df : String → Bool) :
    List RawRow → Registry → Registry × List (String × NormalizedRecord)
  | [], reg => (reg, [])
  | row :: rest, reg =>
    let r := Registry.rowIsAddable reg df row
    let out := Registry.processRows df rest r.2
    (out.1, if r.1 then (row.isin, registryRowFromCsv row) :: out.2 else out.2)

/-- `self.update({...})` of `load_from_file`: insert every collected pair in
order; a later pair with the same key overwrites an earlier entry, exactly
as in the Python dict built by the comprehension and merged by `update`. -/
def Registry.loadFromFile (reg : Registry) (df : String → Bool) (rows : List RawRow) :
    Registry :=
  let out := Registry.processRows df rows reg
  out.2.foldl (fun acc p => dictInsert acc p.1 (RegValue.record p.2)) out.1

/-- The three log outcomes of `load_from_file` (lines 37-43). -/
inductive LoadReport where
  | success (n : Nat)
  | errorsListed
  | noIsinLoaded
deriving DecidableEq

/-- Lines 37-43 of `load_from_file`: `if len(self): if not
self['Errors']['Errors found']: info('%d new ISIN loaded', len(self)) else:
error(...) else: error('No ISIN loaded')`. -/
def Registry.loadOutcome (reg : Registry) : LoadReport :=
  if reg.length ≠ 0 then
    if (Registry.getErrors reg).errorsFound = false then LoadReport.success reg.length
    else LoadReport.errorsListed
  else LoadReport.noIsinLoaded

/-- Number of entries of the dictionary that are ISIN records (everything
except the error aggregate). -/
def recordCount : Registry → Nat
  | [] => 0
  | p :: rest => (match p.2 with | RegValue.record _ => 1 | _ => 0) + recordCount rest

/-- Number of entries stored under the key `'Errors'`. -/
def countErr : Registry → Nat
  | [] => 0
  | p :: rest => (if p.1 = "Errors" then 1 else 0) + countErr rest

/-- An entry is well-placed when the `'Errors'` key holds the aggregate and
every other key holds a record. -/
def entryOk (p : String × RegValue) : Bool :=
  if p.1 = "Errors" then
    match p.2 with | RegValue.errs _ => true | _ => false
  else
    match p.2 with | RegValue.record _ => true | _ => false

/-- The shared-dictionary invariant: exactly one `'Errors'` entry, holding
the aggregate, and records everywhere else. -/
def goodRegistry (reg : Registry) : Bool :=
  countErr reg = 1 && reg.all entryOk

/-! Dictionary lemmas shared by the claims below. -/

theorem lem_lookup_dictInsert_self (d : Registry) (k : String) (v : RegValue) :
    dictLookup (dictInsert d k v) k = some v := by
  induction d with
  | nil => simp [dictInsert, dictLookup]
  | cons p rest ih =>
    by_cases h : p.1 = k
    · simp [dictInsert, h, dictLookup]
    · simp [dictInsert, h, dictLookup, ih]

theorem lem_lookup_dictInsert_ne (d : Registry) (k : String) (v : RegValue) (k2 : String)
    (h : k ≠ k2) : dictLookup (dictInsert d k v) k2 = dictLookup d k2 := by
  induction d with
  | nil => simp [dictInsert, dictLookup, h]
  | cons p rest ih =>
    by_cases hp : p.1 = k
    · simp [dictInsert, hp, dictLookup, h]
    · simp [dictInsert, hp, dictLookup, ih]

theorem lem_getErrors_setErrors (reg : Registry) (e : RegistryErrorDict) :
    Registry.getErrors (Registry.setErrors reg e) = e := by
  simp [Registry.getErrors, Registry.setErrors, lem_lookup_dictInsert_self]

theorem lem_rowIsAddable_fst (reg : Registry) (df : String → Bool) (row : RawRow) :
    (Registry.rowIsAddable reg df row).1 =
      (registryRowIsAddable df (Registry.getErrors reg) row).1 := rfl

theorem lem_rowIsAddable_getErrors (reg : Registry) (df : String → Bool) (row : RawRow) :
    Registry.getErrors (Registry.rowIsAddable reg df row).2 =
      (registryRowIsAddable df (Registry.getErrors reg) row).2 := by
  simp [Registry.rowIsAddable, lem_getErrors_setErrors]

theorem lem_addable_isin_length (df : String → Bool) (e : RegistryErrorDict) (row : RawRow)
    (h : (registryRowIsAddable df e row).1 = true) : row.isin.length = 12 := by
  by_cases h1 : row.isin = ""
  · simp [registryRowIsAddable, h1] at h
  · by_cases h2 : row.isin.length = 12
    · exact h2
    · simp [registryRowIsAddable, h1, h2] at h

theorem lem_errorsFound_mono (df : String → Bool) (e : RegistryErrorDict) (row : RawRow)
    (h : e.errorsFound = true) :
    ((registryRowIsAddable df e row).2).errorsFound = true := by
  simp only [registryRowIsAddable]
  split_ifs <;> simp_all

theorem lem_pending_keys (df : String → Bool) (rows : List RawRow) :
    ∀ reg p, p ∈ (Registry.processRows df rows reg).2 → p.1.length = 12 := by
  induction rows with
  | nil =>
    intro reg p hp
    simp [Registry.processRows] at hp
  | cons row rest ih =>
    intro reg p hp
    simp only [Registry.processRows] at hp
    split at hp
    · rcases List.mem_cons.mp hp with hh | hh
      · subst hh
        refine lem_addable_isin_length df (Registry.getErrors reg) row ?_
        rw [← lem_rowIsAddable_fst]
        assumption
      · exact ih _ p hh
    · exact ih _ p hp

theorem lem_processRows_mono (df : String → Bool) (rows : List RawRow) :
    ∀ reg, (Registry.getErrors reg).errorsFound = true →
      (Registry.getErrors (Registry.processRows df rows reg).1).errorsFound = true := by
  induction rows with
  | nil =>
    intro reg h
    simpa [Registry.processRows] using h
  | cons row rest ih =>
    intro reg h
    simp only [Registry.processRows]
    apply ih
    rw [lem_rowIsAddable_getErrors]
    exact lem_errorsFound_mono df _ row h

theorem lem_foldl_records_getErrors (l : List (String × NormalizedRecord)) :
    ∀ acc : Registry, (∀ p ∈ l, p.1 ≠ "Errors") →
      Registry.getErrors
        (l.foldl (fun acc p => dictInsert acc p.1 (RegValue.record p.2)) acc) =
        Registry.getErrors acc := by
  induction l with
  | nil => intro acc _; rfl
  | cons p rest ih =>
    intro acc h
    simp only [List.foldl_cons]
    rw [ih _ (fun q hq => h q (List.mem_cons_of_mem p hq))]
    unfold Registry.getErrors
    rw [lem_lookup_dictInsert_ne acc p.1 (RegValue.record p.2) "Errors"
      (h p (List.mem_cons_self p rest))]

theorem lem_countErr_insert_errs (d : Registry) (e : RegistryErrorDict)
    (h : countErr d = 1) :
    countErr (dictInsert d "Errors" (RegValue.errs e)) = 1 := by
  induction d with
  | nil => simp [countErr] at h
  | cons p rest ih =>
    by_cases hp : p.1 = "Errors"
    · have hd : dictInsert (p :: rest) "Errors" (RegValue.errs e) =
          ("Errors", RegValue.errs e) :: rest := by
        simp [dictInsert, hp]
      rw [hd]
      simp [countErr, hp] at h ⊢
      omega
    · have hd : dictInsert (p :: rest) "Errors" (RegValue.errs e) =
          p :: dictInsert rest "Errors" (RegValue.errs e) := by
        simp [dictInsert, hp]
      rw [hd]
      simp [countErr, hp] at h ⊢
      exact ih h

theorem lem_countErr_insert_record (d : Registry) (k : String) (r : NormalizedRecord)
    (hk : k ≠ "Errors") :
    countErr (dictInsert d k (RegValue.record r)) = countErr d := by
  induction d with
  | nil => simp [dictInsert, countErr, hk]
  | cons p rest ih =>
    by_cases hp : p.1 = k
    · simp [dictInsert, hp, countErr, hk]
    · simp only [dictInsert, if_neg hp, countErr]
      rw [ih]

theorem lem_all_insert (d : Registry) (k : String) (v : RegValue)
    (hd : d.all entryOk = true) (hv : entryOk (k, v) = true) :
    (dictInsert d k v).all entryOk = true := by
  induction d with
  | nil => simpa [dictInsert] using hv
  | cons p rest ih =>
    simp only [List.all_cons, Bool.and_eq_true] at hd
    by_cases hp : p.1 = k
    · simp only [dictInsert, if_pos hp, List.all_cons, Bool.and_eq_true]
      exact ⟨hv, hd.2⟩
    · simp only [dictInsert, if_neg hp, List.all_cons, Bool.and_eq_true]
      exact ⟨hd.1, ih hd.2⟩

theorem lem_len_eq (d : Registry) (hd : d.all entryOk = true) :
    d.length = recordCount d + countErr d := by
  induction d with
  | nil => rfl
  | cons p rest ih =>
    rcases p with ⟨k, v⟩
    simp only [List.all_cons, Bool.and_eq_true] at hd
    have hrest := ih hd.2
    have hp := hd.1
    by_cases hE : k = "Errors"
    · cases v with
      | errs e =>
        simp [recordCount, countErr, hE, hrest]
        omega
      | record r => simp [entryOk, hE] at hp
    · cases v with
      | errs e => simp [entryOk, hE] at hp
      | record r =>
        simp [recordCount, countErr, hE, hrest]
        omega

theorem lem_good_setErrors (reg : Registry) (e : RegistryErrorDict)
    (h : goodRegistry reg = true) :
    goodRegistry (Registry.setErrors reg e) = true := by
  simp only [goodRegistry, Bool.and_eq_true, decide_eq_true_eq] at h ⊢
  refine ⟨lem_countErr_insert_errs reg e h.1,
    lem_all_insert reg _ _ h.2 (by simp [entryOk])⟩

theorem lem_good_insert_record (reg : Registry) (k : String) (r : NormalizedRecord)
    (hk : k ≠ "Errors") (h : goodRegistry reg = true) :
    goodRegistry (dictInsert reg k (RegValue.record r)) = true := by
  simp only [goodRegistry, Bool.and_eq_true, decide_eq_true_eq] at h ⊢
  constructor
  · rw [lem_countErr_insert_record reg k r hk]
    exact h.1
  · refine lem_all_insert reg _ _ h.2 ?_
    simp [entryOk, hk]

theorem lem_good_rowIsAddable (df : String → Bool) (reg : Registry) (row : RawRow)
    (h : goodRegistry reg = true) :
    goodRegistry (Registry.rowIsAddable reg df row).2 = true :=
  lem_good_setErrors reg _ h

theorem lem_good_processRows (df : String → Bool) (rows : List RawRow) :
    ∀ reg, goodRegistry reg = true →
      goodRegistry (Registry.processRows df rows reg).1 = true := by
  induction rows with
  | nil => intro reg h; simpa [Registry.processRows] using h
  | cons row rest ih =>
    intro reg h
    simp only [Registry.processRows]
    exact ih _ (lem_good_rowIsAddable df reg row h)

theorem lem_good_foldl_records (l : List (String × NormalizedRecord)) :
    ∀ acc : Registry, (∀ p ∈ l, p.1 ≠ "Errors") → goodRegistry acc = true →
      goodRegistry
        (l.foldl (fun acc p => dictInsert acc p.1 (RegValue.record p.2)) acc) = true := by
  induction l with
  | nil => intro acc _ h; exact h
  | cons p rest ih =>
    intro acc hk h
    simp only [List.foldl_cons]
    refine ih _ (fun q hq => hk q (List.mem_cons_of_mem p hq)) ?_
    exact lem_good_insert_record acc p.1 p.2 (hk p (List.mem_cons_self p rest)) h

theorem lem_good_lookup (reg : Registry) (h : goodRegistry reg = true) :
    ∃ e, dictLookup reg "Errors" = some (RegValue.errs e) := by
  simp only [goodRegistry, Bool.and_eq_true, decide_eq_true_eq] at h
  obtain ⟨hc, ha⟩ := h
  induction reg with
  | nil => simp [countErr] at hc
  | cons p rest ih =>
    rcases p with ⟨k, v⟩
    simp only [List.all_cons, Bool.and_eq_true] at ha
    by_cases hE : k = "Errors"
    · cases v with
      | errs e => exact ⟨e, by simp [dictLookup, hE]⟩
      | record r =>
        have hp := ha.1
        simp [entryOk, hE] at hp
    · simp only [countErr, hE] at hc
      have hc2 : countErr rest = 1 := by
        simp at hc
        omega
      obtain ⟨e, he⟩ := ih hc2 ha.2
      exact ⟨e, by simp [dictLookup, hE, he]⟩

/-- C4: a row whose identifier string is empty is not admissible; the check
sets `Errors found` to true, increments `Number of missing ISINs` by exactly
one, leaves the four identifier sets unchanged, and evaluates none of the
remaining rules. -/
theorem missing_isin_hard_reject (df : String → Bool) (e : RegistryErrorDict) (row : RawRow)
    (h : row.isin = "") :
    (registryRowIsAddable df e row).1 = false ∧
    ((registryRowIsAddable df e row).2).errorsFound = true ∧
    ((registryRowIsAddable df e row).2).numberOfMissingISINs = e.numberOfMissingISINs + 1 ∧
    ((registryRowIsAddable df e row).2).faultyISINs = e.faultyISINs ∧
    ((registryRowIsAddable df e row).2).missingNames = e.missingNames ∧
    ((registryRowIsAddable df e row).2).faultyMonthsInReport = e.faultyMonthsInReport ∧
    ((registryRowIsAddable df e row).2).faultyReportExpiryDates = e.faultyReportExpiryDates := by
  simp [registryRowIsAddable, h]

/-- Witness for C4 at the concrete row of `test_missing_isin`. -/
theorem missing_isin_hard_reject_witness :
    (registryRowIsAddable (fun _ => false) RegistryErrorDict.init
      ⟨"", "n", "1.0", "3", "", "l1", "l2"⟩).1 = false ∧
    ((registryRowIsAddable (fun _ => false) RegistryErrorDict.init
      ⟨"", "n", "1.0", "3", "", "l1", "l2"⟩).2).numberOfMissingISINs =
      RegistryErrorDict.init.numberOfMissingISINs + 1 :=
  ⟨(missing_isin_hard_reject (fun _ => false) RegistryErrorDict.init
      ⟨"", "n", "1.0", "3", "", "l1", "l2"⟩ rfl).1,
   (missing_isin_hard_reject (fun _ => false) RegistryErrorDict.init
      ⟨"", "n", "1.0", "3", "", "l1", "l2"⟩ rfl).2.2.1⟩

/-- C5: a row with a non-empty identifier of length other than 12 is not
admissible; the check sets `Errors found`, adds the identifier to
`Faulty ISINs`, and changes nothing else (in particular the missing-ISIN
counter), stopping at this rule. -/
theorem malformed_isin_hard_reject (df : String → Bool) (e : RegistryErrorDict) (row : RawRow)
    (h1 : row.isin ≠ "") (h2 : row.isin.length ≠ 12) :
    (registryRowIsAddable df e row).1 = false ∧
    ((registryRowIsAddable df e row).2).errorsFound = true ∧
    ((registryRowIsAddable df e row).2).faultyISINs = insert row.isin e.faultyISINs ∧
    row.isin ∈ ((registryRowIsAddable df e row).2).faultyISINs ∧
    ((registryRowIsAddable df e row).2).numberOfMissingISINs = e.numberOfMissingISINs ∧
    ((registryRowIsAddable df e row).2).missingNames = e.missingNames ∧
    ((registryRowIsAddable df e row).2).faultyMonthsInReport = e.faultyMonthsInReport ∧
    ((registryRowIsAddable df e row).2).faultyReportExpiryDates = e.faultyReportExpiryDates := by
  simp [registryRowIsAddable, h1, h2, Finset.mem_insert_self]

/-- Witness for C5 at the concrete row of `test_faulty_isin`. -/
theorem malformed_isin_hard_reject_witness :
    (registryRowIsAddable (fun _ => false) RegistryErrorDict.init
      ⟨"12345678901", "n", "1.0", "3", "", "l1", "l2"⟩).1 = false ∧
    "12345678901" ∈ ((registryRowIsAddable (fun _ => false) RegistryErrorDict.init
      ⟨"12345678901", "n", "1.0", "3", "", "l1", "l2"⟩).2).faultyISINs :=
  ⟨(malformed_isin_hard_reject (fun _ => false) RegistryErrorDict.init
      ⟨"12345678901", "n", "1.0", "3", "", "l1", "l2"⟩ (by decide) (by decide)).1,
   (malformed_isin_hard_reject (fun _ => false) RegistryErrorDict.init
      ⟨"12345678901", "n", "1.0", "3", "", "l1", "l2"⟩ (by decide) (by decide)).2.2.2.1⟩

/-- C6: for a row with a non-empty length-12 identifier, the reporting-period
rule parses the months string as an integer (empty string treated as zero);
exactly when that fails or the value is outside {0, 3, 6, 9, 12} (that is,
when `monthsBad` holds) it sets `Errors found` and adds the identifier to
`Faulty months in report`, otherwise it leaves that set untouched; the row
stays admissible in every case. -/
theorem months_soft_error (df : String → Bool) (e : RegistryErrorDict) (row : RawRow)
    (h1 : row.isin ≠ "") (h2 : row.isin.length = 12) :
    (registryRowIsAddable df e row).1 = true ∧
    (monthsBad row.monthsInReport = true →
      ((registryRowIsAddable df e row).2).errorsFound = true ∧
      row.isin ∈ ((registryRowIsAddable df e row).2).faultyMonthsInReport) ∧
    (monthsBad row.monthsInReport = false →
      ((registryRowIsAddable df e row).2).faultyMonthsInReport = e.faultyMonthsInReport) := by
  simp only [registryRowIsAddable, h1, if_neg h1, h2]
  split_ifs <;> simp_all [Finset.mem_insert_self]

/-- Witness for C6 at the concrete rows of `test_unacceptable_months`
(months string `"4"`) and `test_acceptable_months` (months string `"3"`). -/
theorem months_soft_error_witness :
    monthsBad "4" = true ∧
    "123456789012" ∈ ((registryRowIsAddable (fun _ => true) RegistryErrorDict.init
      ⟨"123456789012", "Company", "", "4", "2000.01.01", "", ""⟩).2).faultyMonthsInReport ∧
    monthsBad "3" = false ∧
    ((registryRowIsAddable (fun _ => true) RegistryErrorDict.init
      ⟨"123456789012", "Company", "", "3", "2000.01.01", "", ""⟩).2).faultyMonthsInReport =
      RegistryErrorDict.init.faultyMonthsInReport :=
  ⟨by decide,
   ((months_soft_error (fun _ => true) RegistryErrorDict.init
      ⟨"123456789012", "Company", "", "4", "2000.01.01", "", ""⟩
      (by decide) (by decide)).2.1 (by decide)).2,
   by decide,
   (months_soft_error (fun _ => true) RegistryErrorDict.init
      ⟨"123456789012", "Company", "", "3", "2000.01.01", "", ""⟩
      (by decide) (by decide)).2.2 (by decide)⟩

/-- C7: for a row with a non-empty length-12 identifier, an empty expiry-date
string is never checked (the expiry set is untouched), while a non-empty
string that fails the configured date-format parse sets `Errors found` and
adds the identifier to `Faulty report expiry dates`; the row stays
admissible in every case. -/
theorem expiry_soft_error (df : String → Bool) (e : RegistryErrorDict) (row : RawRow)
    (h1 : row.isin ≠ "") (h2 : row.isin.length = 12) :
    (registryRowIsAddable df e row).1 = true ∧
    (row.reportExpiryDate = "" →
      ((registryRowIsAddable df e row).2).faultyReportExpiryDates =
        e.faultyReportExpiryDates) ∧
    (row.reportExpiryDate ≠ "" → df row.reportExpiryDate = false →
      ((registryRowIsAddable df e row).2).errorsFound = true ∧
      row.isin ∈ ((registryRowIsAddable df e row).2).faultyReportExpiryDates) := by
  simp only [registryRowIsAddable, h1, if_neg h1, h2]
  split_ifs <;> simp_all [Finset.mem_insert_self]

/-- Witness for C7 at the concrete rows of `test_unacceptable_expiry_date`
(a date rejected by the format parse) and `test_acceptable_expiry_dates`
(the empty date string). -/
theorem expiry_soft_error_witness :
    ((registryRowIsAddable (fun _ => false) RegistryErrorDict.init
      ⟨"123456789012", "Company", "", "", "20000.01.01", "", ""⟩).2).errorsFound = true ∧
    ((registryRowIsAddable (fun _ => false) RegistryErrorDict.init
      ⟨"123456789012", "Company", "", "", "", "", ""⟩).2).faultyReportExpiryDates =
      RegistryErrorDict.init.faultyReportExpiryDates :=
  ⟨((expiry_soft_error (fun _ => false) RegistryErrorDict.init
      ⟨"123456789012", "Company", "", "", "20000.01.01", "", ""⟩
      (by decide) (by decide)).2.2 (by decide) rfl).1,
   (expiry_soft_error (fun _ => false) RegistryErrorDict.init
      ⟨"123456789012", "Company", "", "", "", "", ""⟩
      (by decide) (by decide)).2.1 rfl⟩

/-- C8: the `Errors found` flag is monotone within a load: it starts false,
a check that leaves it false changed nothing at all (so it turns true the
first time any failure category is triggered), and neither the
admissibility check nor a whole batch load ever resets it from true to
false. -/
theorem errors_found_monotone :
    RegistryErrorDict.init.errorsFound = false ∧
    (∀ df e row, e.errorsFound = true →
      ((registryRowIsAddable df e row).2).errorsFound = true) ∧
    (∀ df e row, ((registryRowIsAddable df e row).2).errorsFound = false →
      (registryRowIsAddable df e row).2 = e) ∧
    (∀ df reg rows, (Registry.getErrors reg).errorsFound = true →
      (Registry.getErrors (Registry.loadFromFile reg df rows)).errorsFound = true) := by
  refine ⟨rfl, fun df e row h => lem_errorsFound_mono df e row h, ?_, ?_⟩
  · intro df e row h
    simp only [registryRowIsAddable] at h ⊢
    split_ifs at h ⊢ <;> simp_all
  · intro df reg rows h
    simp only [Registry.loadFromFile]
    have hk : ∀ p ∈ (Registry.processRows df rows reg).2, p.1 ≠ "Errors" := by
      intro p hp hE
      have h12 := lem_pending_keys df rows reg p hp
      rw [hE] at h12
      exact absurd h12 (by decide)
    rw [lem_foldl_records_getErrors _ _ hk]
    exact lem_processRows_mono df rows reg h

/-- Witness for C8: the check preserves an already-true flag, an all-valid
row leaves the aggregate untouched, and a load over an empty batch keeps a
true flag. -/
theorem errors_found_monotone_witness :
    ((registryRowIsAddable (fun _ => false)
      { RegistryErrorDict.init with errorsFound := true }
      ⟨"123456789012", "Company", "", "3", "", "", ""⟩).2).errorsFound = true ∧
    (registryRowIsAddable (fun _ => false) RegistryErrorDict.init
      ⟨"123456789012", "Company", "", "3", "", "", ""⟩).2 = RegistryErrorDict.init ∧
    (Registry.getErrors (Registry.loadFromFile
      [("Errors", RegValue.errs { RegistryErrorDict.init with errorsFound := true })]
      (fun _ => false) [])).errorsFound = true :=
  ⟨errors_found_monotone.2.1 (fun _ => false) _ _ rfl,
   errors_found_monotone.2.2.1 (fun _ => false) RegistryErrorDict.init _ (by decide),
   errors_found_monotone.2.2.2 (fun _ => false) _ [] (by decide)⟩

/-- C9: the EPS conversion is total and never rejects a row: a string that
parses as an exact decimal is used exactly as parsed (no rounding beyond
the source's precision: "12.34" keeps coefficient 1234 and exponent -2,
denoting 1234/100), any string that fails strict decimal parsing becomes
exactly Decimal 0, and the admissibility check — hence the ErrorReport — is
independent of the EPS field, so no error is ever recorded for it. -/
theorem eps_total_conversion :
    (∀ s d, parseDecimal s = some d → stringToDecimal s = d) ∧
    (∀ s, parseDecimal s = none → stringToDecimal s = ⟨0, 0⟩) ∧
    stringToDecimal "12.34" = ⟨1234, -2⟩ ∧
    PyDecimal.val ⟨1234, -2⟩ = 1234 / 100 ∧
    (∀ df e i n ep1 ep2 m dt l1 l2,
      registryRowIsAddable df e ⟨i, n, ep1, m, dt, l1, l2⟩ =
        registryRowIsAddable df e ⟨i, n, ep2, m, dt, l1, l2⟩) := by
  refine ⟨?_, ?_, by decide, by norm_num [PyDecimal.val], ?_⟩
  · intro s d h
    simp [stringToDecimal, h]
  · intro s h
    simp [stringToDecimal, h]
  · intro df e i n ep1 ep2 m dt l1 l2
    rfl

/-- Witness for C9 at an unparseable and a parseable concrete EPS string. -/
theorem eps_total_conversion_witness :
    stringToDecimal "EPS" = ⟨0, 0⟩ ∧ stringToDecimal "-2.5" = ⟨-25, -1⟩ :=
  ⟨eps_total_conversion.2.1 "EPS" (by decide),
   eps_total_conversion.1 "-2.5" ⟨-25, -1⟩ (by decide)⟩

/-- C10: one shared dictionary: from construction on, the registry holds
exactly one entry under the key `'Errors'`, bound to the error aggregate,
with normalized records under every other key; construction, the
admissibility check and the batch load all preserve this, so the mapping is
never empty and its size is the number of loaded records plus one. -/
theorem shared_dict_invariant :
    goodRegistry Registry.init = true ∧
    (∀ df reg row, goodRegistry reg = true →
      goodRegistry (Registry.rowIsAddable reg df row).2 = true) ∧
    (∀ df reg rows, goodRegistry reg = true →
      goodRegistry (Registry.loadFromFile reg df rows) = true) ∧
    (∀ reg, goodRegistry reg = true →
      (∃ e, dictLookup reg "Errors" = some (RegValue.errs e)) ∧
      reg.length = recordCount reg + 1 ∧ reg.length ≠ 0) := by
  refine ⟨by decide, fun df reg row h => lem_good_rowIsAddable df reg row h, ?_, ?_⟩
  · intro df reg rows h
    simp only [Registry.loadFromFile]
    have hk : ∀ p ∈ (Registry.processRows df rows reg).2, p.1 ≠ "Errors" := by
      intro p hp hE
      have h12 := lem_pending_keys df rows reg p hp
      rw [hE] at h12
      exact absurd h12 (by decide)
    exact lem_good_foldl_records _ _ hk (lem_good_processRows df rows reg h)
  · intro reg h
    have hlook := lem_good_lookup reg h
    have h2 := h
    simp only [goodRegistry, Bool.and_eq_true, decide_eq_true_eq] at h2
    have hlen := lem_len_eq reg h2.2
    have hcnt := h2.1
    exact ⟨hlook, by omega, by omega⟩

/-- Witness for C10: the invariant after loading one valid row, and the
size relation on the freshly constructed registry. -/
theorem shared_dict_invariant_witness :
    goodRegistry (Registry.loadFromFile Registry.init (fun _ => false)
      [⟨"123456789012", "Company", "12.34", "3", "", "", ""⟩]) = true ∧
    Registry.init.length = recordCount Registry.init + 1 :=
  ⟨shared_dict_invariant.2.2.1 (fun _ => false) Registry.init _ (by decide),
   (shared_dict_invariant.2.2.2 Registry.init (by decide)).2.1⟩

/-- C1 (divergence evidence): the comma EPS string "12,34" does NOT yield
12.34 — line 105's substitution result is discarded, the strict parse of
the original string fails at the comma, and the zero fallback is taken —
whereas the substitution the spec describes (`stringToDecimalSpec`) gives
exactly coefficient 1234, exponent -2, the value 1234/100 ≠ 0. -/
theorem eps_comma_discarded :
    stringToDecimal "12,34" = ⟨0, 0⟩ ∧
    (registryRowFromCsv
      ⟨"123456789012", "Company", "12,34", "3", "", "", ""⟩).eps = ⟨0, 0⟩ ∧
    stringToDecimalSpec "12,34" = ⟨1234, -2⟩ ∧
    PyDecimal.val ⟨1234, -2⟩ ≠ PyDecimal.val ⟨0, 0⟩ :=
  ⟨by decide, by decide, by decide, by norm_num [PyDecimal.val]⟩

/-- C2 (divergence evidence): loading a batch in which every row is
hard-rejected (one empty identifier, one of length 11) leaves no record
entries and non-zero error counters; but the dictionary still holds the
`'Errors'` entry, so `len(self)` is 1 (truthy) and the load takes the
errors branch, not the `'No ISIN loaded'` branch. -/
theorem all_rejected_batch_outcome :
    recordCount (Registry.loadFromFile Registry.init (fun _ => false)
      [⟨"", "", "", "", "", "", ""⟩, ⟨"12345678901", "n", "", "", "", "", ""⟩]) = 0 ∧
    (Registry.getErrors (Registry.loadFromFile Registry.init (fun _ => false)
      [⟨"", "", "", "", "", "", ""⟩,
       ⟨"12345678901", "n", "", "", "", "", ""⟩])).errorsFound = true ∧
    (Registry.getErrors (Registry.loadFromFile Registry.init (fun _ => false)
      [⟨"", "", "", "", "", "", ""⟩,
       ⟨"12345678901", "n", "", "", "", "", ""⟩])).numberOfMissingISINs = 1 ∧
    "12345678901" ∈ (Registry.getErrors (Registry.loadFromFile Registry.init (fun _ => false)
      [⟨"", "", "", "", "", "", ""⟩,
       ⟨"12345678901", "n", "", "", "", "", ""⟩])).faultyISINs ∧
    Registry.loadOutcome (Registry.loadFromFile Registry.init (fun _ => false)
      [⟨"", "", "", "", "", "", ""⟩,
       ⟨"12345678901", "n", "", "", "", "", ""⟩]) = LoadReport.errorsListed ∧
    LoadReport.errorsListed ≠ LoadReport.noIsinLoaded := by
  decide

/-- C3 (divergence evidence): loading one fully valid row yields exactly
one record entry, stored under its identifier, with `Errors found` still
false; but the success report counts `len(self)`, which includes the
`'Errors'` entry, so it announces 2 new ISIN, not 1. -/
theorem all_valid_batch_outcome :
    recordCount (Registry.loadFromFile Registry.init (fun _ => true)
      [⟨"123456789012", "Company", "12.34", "3", "2000.01.01", "l1", "l2"⟩]) = 1 ∧
    (Registry.getErrors (Registry.loadFromFile Registry.init (fun _ => true)
      [⟨"123456789012", "Company", "12.34", "3", "2000.01.01", "l1", "l2"⟩])).errorsFound
      = false ∧
    dictLookup (Registry.loadFromFile Registry.init (fun _ => true)
      [⟨"123456789012", "Company", "12.34", "3", "2000.01.01", "l1", "l2"⟩])
      "123456789012" =
      some (RegValue.record ⟨"Company", ⟨1234, -2⟩, "3", "2000.01.01", "l1", "l2"⟩) ∧
    Registry.loadOutcome (Registry.loadFromFile Registry.init (fun _ => true)
      [⟨"123456789012", "Company", "12.34", "3", "2000.01.01", "l1", "l2"⟩]) =
      LoadReport.success 2 ∧
    LoadReport.success 2 ≠ LoadReport.success 1 := by
  decide
